import Mathlib

/-!
Shallow embedding of the frank-wolfe repository
(`code/ProblemManager/GeneralProblem.py`, `code/ProblemManager/Lasso.py`).

Vectors are lists of rationals; numpy arrays of floats are modelled over `ℚ`
(the claims settled here are structural: history lengths, stopping tags,
branch selection, divisor non-vanishing — not float rounding).  Wall-clock
`time()` readings are modelled by a stream `ts : ℕ → ℚ` sampled at an
increasing tick counter, one tick per `time()` call.  Division on `ℚ` is
Lean's total division (`q / 0 = 0`); wherever a claim is about division by
zero, the embedding makes the division fallible (`Except`) instead.
-/

/-- Componentwise vector addition (numpy `+` on same-shape arrays). -/
def vadd (a b : List ℚ) : List ℚ := List.zipWith (· + ·) a b

/-- Componentwise vector subtraction (numpy `-`). -/
def vsub (a b : List ℚ) : List ℚ := List.zipWith (· - ·) a b

/-- Scalar times vector (numpy scalar `*` array). -/
def smul (c : ℚ) (v : List ℚ) : List ℚ := v.map (fun a => c * a)

/-- Inner product `a.transpose() @ b`. -/
def dot (a b : List ℚ) : ℚ := (List.zipWith (· * ·) a b).sum

/-- Squared Euclidean norm: the source writes `power(norm(x=v, ord=2), 2)`,
which equals the sum of squares and is rational. -/
def norm2sq (v : List ℚ) : ℚ := dot v v

/-- L1 norm, `norm(x=v, ord=1)` in `Lasso._check_feasible`. -/
def norm1 (v : List ℚ) : ℚ := (v.map (fun a => |a|)).sum

/-- The `GeneralProblem.__StoppingCondition` enum of `GeneralProblem.py`:
`iterations = 'maximum iterations reached'`, `gap = 'gap is smaller than
tolerance'`, `error = 'error is smaller than tolerance'`. -/
inductive Stopping where
  | iterations
  | gap
  | error
deriving DecidableEq, Repr

/-- The string value attached to each `__StoppingCondition` member. -/
def Stopping.value : Stopping → String
  | .iterations => "maximum iterations reached"
  | .gap => "gap is smaller than tolerance"
  | .error => "error is smaller than tolerance"

/-- The abstract problem contract of `GeneralProblem`: one field per
abstract method (`_check_feasible`, `_function`, `_gradient`, the cached
result of `_get_gradient_lipschitz_constant`, `_linear_oracle`,
`_projection`, `_line_search`). -/
structure ProblemSpec where
  check_feasible : List ℚ → Bool
  function : List ℚ → ℚ
  gradient : List ℚ → List ℚ
  gradient_lipschitz_constant : ℚ
  linear_oracle : List ℚ → List ℚ
  projection : List ℚ → List ℚ
  line_search : List ℚ → List ℚ → ℚ

/-- Result of one solver run: the `self._errors` list, the `self._times`
list (raw timestamps), the stopping tag reported at exit, the final value
of the `iteration` counter (= number of completed update steps), and the
final tick of the `time()` stream. -/
structure RunResult where
  errors : List ℚ
  times : List ℚ
  stop : Stopping
  iteration : ℕ
  tick : ℕ
deriving DecidableEq, Repr

/-- The iteration skeleton shared verbatim by all five solver methods of
`GeneralProblem.py` (`while iteration <= max_iterations:` — compute the
metric, append it to `_errors`, if `metric < tolerance` append a timestamp
and break with the break tag, else compute the step and the new state,
advance `iteration`, append a timestamp, continue).  `fuel` counts the
loop entries still allowed, so the top-level call uses
`fuel = max_iterations + 1` and `it = 0`; the loop-carried state `st` is
the iterate `x` (plus `cap_l` for the backtracking variant).  Each variant
supplies its metric and its update; both recompute the gradient and the
oracle point — the source computes them once per pass, but the functions
are pure so the runs coincide.  A `.error` result models a run the source
cannot complete (division by zero, or a non-terminating inner search). -/
def solver_loop {α : Type} (tol : ℚ) (ts : ℕ → ℚ) (metric : ℕ → α → ℚ)
    (update : ℕ → α → Except String α) (breakStop : Stopping) :
    ℕ → ℕ → α → List ℚ → List ℚ → ℕ → Except String RunResult
  | 0, it, _, errors, times, tick => .ok ⟨errors, times, .iterations, it, tick⟩
  | fuel + 1, it, st, errors, times, tick =>
    let m := metric it st
    if m < tol then
      .ok ⟨errors ++ [m], times ++ [ts tick], breakStop, it, tick + 1⟩
    else
      match update it st with
      | .error e => .error e
      | .ok st' =>
        solver_loop tol ts metric update breakStop fuel (it + 1) st'
          (errors ++ [m]) (times ++ [ts tick]) (tick + 1)

/-- Embedding of `GeneralProblem.projected_gradient_descent`: metric is the
objective value, the constant step is `1 / L`, the update projects the
gradient step, the break tag is `error`. -/
def projected_gradient_descent (P : ProblemSpec) (tol : ℚ) (maxIter : ℕ)
    (x0 : List ℚ) (ts : ℕ → ℚ) : Except String RunResult :=
  solver_loop tol ts (fun _ x => P.function x)
    (fun _ x =>
      .ok (P.projection
        (vsub x (smul (1 / P.gradient_lipschitz_constant) (P.gradient x)))))
    .error (maxIter + 1) 0 x0 [] [] 0

/-- Embedding of `GeneralProblem.frank_wolfe_open_loop`: gap
`gradient @ (x - s)`, step `parameter / (iteration + parameter)` at the
pre-increment iteration index, update `x = (1-step)*x + step*s`. -/
def frank_wolfe_open_loop (P : ProblemSpec) (parameter : ℚ) (tol : ℚ)
    (maxIter : ℕ) (x0 : List ℚ) (ts : ℕ → ℚ) : Except String RunResult :=
  solver_loop tol ts
    (fun _ x =>
      let gradient := P.gradient x
      let s := P.linear_oracle gradient
      dot gradient (vsub x s))
    (fun it x =>
      let gradient := P.gradient x
      let s := P.linear_oracle gradient
      let step := parameter / ((it : ℚ) + parameter)
      .ok (vadd (smul (1 - step) x) (smul step s)))
    .gap (maxIter + 1) 0 x0 [] [] 0

/-- Embedding of `GeneralProblem.frank_wolfe_short_steps`: gap
`-gradient @ d` with `d = s - x`, step
`min(1, gap / (L * power(norm(d, 2), 2)))`, update `x += step * d`.  The
division is made fallible: the run aborts where the source would divide by
zero. -/
def frank_wolfe_short_steps (P : ProblemSpec) (tol : ℚ) (maxIter : ℕ)
    (x0 : List ℚ) (ts : ℕ → ℚ) : Except String RunResult :=
  solver_loop tol ts
    (fun _ x =>
      let gradient := P.gradient x
      let s := P.linear_oracle gradient
      let gap := -(dot gradient (vsub s x))
      gap)
    (fun _ x =>
      let gradient := P.gradient x
      let s := P.linear_oracle gradient
      let d := vsub s x
      let gap := -(dot gradient d)
      if P.gradient_lipschitz_constant * norm2sq d = 0 then
        .error "division by zero in step size"
      else
        .ok (vadd x
          (smul (min 1 (gap / (P.gradient_lipschitz_constant * norm2sq d))) d)))
    .gap (maxIter + 1) 0 x0 [] [] 0

/-- Embedding of `GeneralProblem.frank_wolfe_line_search`: gap
`gradient @ (x - s)`, step from the problem `_line_search(s, x)`, update
`x = (1-step)*x + step*s`. -/
def frank_wolfe_line_search (P : ProblemSpec) (tol : ℚ) (maxIter : ℕ)
    (x0 : List ℚ) (ts : ℕ → ℚ) : Except String RunResult :=
  solver_loop tol ts
    (fun _ x =>
      let gradient := P.gradient x
      let s := P.linear_oracle gradient
      dot gradient (vsub x s))
    (fun _ x =>
      let gradient := P.gradient x
      let s := P.linear_oracle gradient
      let step := P.line_search s x
      .ok (vadd (smul (1 - step) x) (smul step s)))
    .gap (maxIter + 1) 0 x0 [] [] 0

/-- Candidate step of the backtracking inner search:
`gamma = min(1, (gradient_t @ (x_t - s_t)) / (cap_m * power(norm(x_t - s_t, 2), 2)))`
(line 239-242 of `GeneralProblem.py`). -/
def candidateGamma (gradient_t x_t s_t : List ℚ) (cap_m : ℚ) : ℚ :=
  min 1 ((dot gradient_t (vsub x_t s_t)) / (cap_m * norm2sq (vsub x_t s_t)))

/-- Acceptance test of the backtracking inner search, line 244 of
`GeneralProblem.py`:
`self._gradient(x=x_t + gamma*(s-x)).transpose() @ (x-s) >= 0` — the
inner product of the gradient at `x_t + gamma*d` with `x_t - s_t` (NOT
`s_t - x_t`) must be non-negative.  The closure variables `s`, `x` equal
`s_t`, `x_t` at the single call site. -/
def backtracking_accepts (gradient_fn : List ℚ → List ℚ) (x_t s_t : List ℚ)
    (gamma : ℚ) : Bool :=
  decide (0 ≤ dot (gradient_fn (vadd x_t (smul gamma (vsub s_t x_t)))) (vsub x_t s_t))

/-- Inner `while True` of `frank_wolfe_backtracking.__step_size`, with fuel:
try the candidate step for the current `cap_m`; accept when
`backtracking_accepts` holds, otherwise double `cap_m` (`tau = 2`) and
retry.  `none` models fuel running out, i.e. an inner search the source
never exits. -/
def backtracking_step_size_go (gradient_fn : List ℚ → List ℚ)
    (gradient_t x_t s_t : List ℚ) : ℕ → ℚ → Option (ℚ × ℚ)
  | 0, _ => none
  | fuel + 1, cap_m =>
    let gamma := candidateGamma gradient_t x_t s_t cap_m
    if backtracking_accepts gradient_fn x_t s_t gamma then
      some (gamma, cap_m)
    else
      backtracking_step_size_go gradient_fn gradient_t x_t s_t fuel (cap_m * 2)

/-- Embedding of `frank_wolfe_backtracking.__step_size`: the search starts
from `cap_m = eta * cap_l_t` with `eta = 0.9`. -/
def backtracking_step_size (gradient_fn : List ℚ → List ℚ) (cap_l_t : ℚ)
    (gradient_t x_t s_t : List ℚ) (fuel : ℕ) : Option (ℚ × ℚ) :=
  backtracking_step_size_go gradient_fn gradient_t x_t s_t fuel (9/10 * cap_l_t)

/-- The smoothness estimate fed to `__step_size`: at iteration 0 the source
computes the finite-difference probe
`cap_l = norm(gradient - gradient(x + tolerance*d), 2) / (tolerance * norm(d, 2))`
(line 271-272); afterwards it is the `cap_l` returned by the previous
`__step_size` call.  The plain (un-squared) Euclidean norm is irrational on
`ℚ`, so it is a parameter `norm2` of the embedding, supplied per example. -/
def backtracking_cap_l (P : ProblemSpec) (norm2 : List ℚ → ℚ) (tol : ℚ)
    (it : ℕ) (capl : Option ℚ) (gradient x d : List ℚ) : ℚ :=
  if it = 0 then
    norm2 (vsub gradient (P.gradient (vadd x (smul tol d)))) / (tol * norm2 d)
  else capl.getD 0

/-- One update of `frank_wolfe_backtracking` after the tolerance check: the
loop state is `(x, cap_l)` (`cap_l` is `None` until iteration 0 computes
it); the accepted `(step_size, cap_m)` pair updates `x += step_size * d`
and stores the accepted `cap_m` as the `cap_l` of the next iteration
(line 274-282). -/
def backtracking_update (P : ProblemSpec) (norm2 : List ℚ → ℚ)
    (innerFuel : ℕ) (tol : ℚ) (it : ℕ) (st : List ℚ × Option ℚ) :
    Except String (List ℚ × Option ℚ) :=
  let x := st.1
  let gradient := P.gradient x
  let s := P.linear_oracle gradient
  let d := vsub s x
  let cl := backtracking_cap_l P norm2 tol it st.2 gradient x d
  match backtracking_step_size P.gradient cl gradient x s innerFuel with
  | none => .error "backtracking inner search did not terminate"
  | some (step, cap_m) => .ok (vadd x (smul step d), some cap_m)

/-- Embedding of `GeneralProblem.frank_wolfe_backtracking`: gap
`-gradient @ d`, adaptive step via `backtracking_update`. -/
def frank_wolfe_backtracking (P : ProblemSpec) (norm2 : List ℚ → ℚ)
    (innerFuel : ℕ) (tol : ℚ) (maxIter : ℕ) (x0 : List ℚ) (ts : ℕ → ℚ) :
    Except String RunResult :=
  solver_loop tol ts
    (fun _ st =>
      let gradient := P.gradient st.1
      let s := P.linear_oracle gradient
      let gap := -(dot gradient (vsub s st.1))
      gap)
    (backtracking_update P norm2 innerFuel tol)
    .gap (maxIter + 1) 0 (x0, none) [] [] 0

/-- Whether an `Except` value is `.ok`. -/
def exceptIsOk {ε α : Type} : Except ε α → Bool
  | .ok _ => true
  | .error _ => false

/-- Error history of a run (`[]` when the run aborted). -/
def runErrors : Except String RunResult → List ℚ
  | .ok r => r.errors
  | .error _ => []

/-- Time history of a run (`[]` when the run aborted). -/
def runTimes : Except String RunResult → List ℚ
  | .ok r => r.times
  | .error _ => []

/-- Stopping tag of a run (`.iterations` when the run aborted). -/
def runStop : Except String RunResult → Stopping
  | .ok r => r.stop
  | .error _ => .iterations

/-- Final iteration counter of a run (`0` when the run aborted). -/
def runIteration : Except String RunResult → ℕ
  | .ok r => r.iteration
  | .error _ => 0

/-- Computable check that no recorded metric of a completed run fell below
the tolerance (so no iteration could have taken the break path). -/
def noEarlyStop (res : Except String RunResult) (tol : ℚ) : Bool :=
  match res with
  | .ok r => r.errors.all (fun e => !(decide (e < tol)))
  | .error _ => false

/-- Truthiness of a Python `int` default-`None` argument: `None` and `0`
are falsy. -/
def truthyNat : Option ℕ → Bool
  | none => false
  | some n => n != 0

/-- Truthiness of a Python `float` default-`None` argument: `None` and
`0.0` are falsy. -/
def truthyRat : Option ℚ → Bool
  | none => false
  | some q => q != 0

/-- Truthiness of a Python `str` default-`None` argument: `None` and the
empty string are falsy. -/
def truthyStr : Option String → Bool
  | none => false
  | some s => s != ""

/-- One line printed by `GeneralProblem.__show_results`.  `formatted i v`
stands for the string built by the format
`'{iteration}\x7bvalue:.2E}'.format(...)` (the decimal rendering of the
float is not modelled); `raw s` for a line printed verbatim; `empty` for
the empty string printed when neither branch fires. -/
inductive Line where
  | formatted (iteration : ℕ) (value : ℚ)
  | raw (s : String)
  | empty
deriving DecidableEq, Repr

/-- Embedding of `GeneralProblem.__show_results` (line 61-72): the
formatted branch fires only `if iteration and value` — Python truthiness,
so iteration `0` or a metric equal to `0` skip it; `elif other` prints the
passed string; otherwise the accumulated empty string is printed. -/
def show_results (iteration : Option ℕ) (value : Option ℚ)
    (other : Option String) : Line :=
  if truthyNat iteration && truthyRat value then
    .formatted (iteration.getD 0) (value.getD 0)
  else if truthyStr other then
    .raw (other.getD "")
  else
    .empty

/-- Truthiness of a numpy array, as evaluated by `x_0 if x_0 else ...`:
an empty array is falsy, a one-element array has the truthiness of its
entry, and any larger array raises
`ValueError: The truth value of an array with more than one element is ambiguous`. -/
def npTruthy : List ℚ → Except String Bool
  | [] => .ok false
  | [a] => .ok (a != 0)
  | _ => .error "The truth value of an array with more than one element is ambiguous"

/-- The starting point actually used by `GeneralProblem.__init__` line 15:
`self._x_0 = x_0 if x_0 else zeros(shape=x_size)`. -/
def effective_x_0 (x_0 : Option (List ℚ)) (x_size : ℕ) :
    Except String (List ℚ) :=
  match x_0 with
  | none => .ok (List.replicate x_size 0)
  | some v => do
    if (← npTruthy v) then pure v else pure (List.replicate x_size 0)

/-- The fields `GeneralProblem.__init__` stores on the instance (the two
history fields start as `None` and are not part of the constructed
state). -/
structure GeneralProblemState where
  tolerance : ℚ
  max_iterations : ℕ
  x_0 : List ℚ
  gradient_lipschitz_constant : ℚ
deriving DecidableEq, Repr

/-- Embedding of `GeneralProblem.__init__` (line 10-21): resolve the
effective starting point, assert feasibility
(`assert self._check_feasible(x=self._x_0), 'x_0 not in the feasible set'`),
then compute and cache the gradient-Lipschitz estimate.  No other check is
performed. -/
def GeneralProblem.init (P : ProblemSpec) (tolerance : ℚ)
    (max_iterations : ℕ) (x_0 : Option (List ℚ)) (x_size : ℕ) :
    Except String GeneralProblemState := do
  let x0 ← effective_x_0 x_0 x_size
  if P.check_feasible x0 then
    .ok ⟨tolerance, max_iterations, x0, P.gradient_lipschitz_constant⟩
  else
    .error "x_0 not in the feasible set"

/-- Matrix-vector product `A @ x`, rows as lists. -/
def matVec (A : List (List ℚ)) (x : List ℚ) : List ℚ :=
  A.map (fun row => dot row x)

/-- Column `j` of a matrix. -/
def matCol (A : List (List ℚ)) (j : ℕ) : List ℚ :=
  A.map (fun row => row.getD j 0)

/-- Matrix transpose `A.transpose()`. -/
def matTranspose (A : List (List ℚ)) : List (List ℚ) :=
  (List.range (A.headD []).length).map (matCol A)

/-- `sign` of numpy: `1`, `-1` or `0`. -/
def signQ (q : ℚ) : ℚ :=
  if 0 < q then 1 else if q < 0 then -1 else 0

/-- First index of the maximal value of `abs(v)` — numpy `argmax(abs(x))`
keeps the first occurrence of the maximum. -/
def argmaxAbsGo : List ℚ → ℕ → ℕ → ℚ → ℕ
  | [], _, besti, _ => besti
  | a :: rest, i, besti, bestv =>
    if bestv < |a| then argmaxAbsGo rest (i + 1) i |a|
    else argmaxAbsGo rest (i + 1) besti bestv

/-- `argmax(a=abs(x))` over a list (0 on the empty list). -/
def argmaxAbs : List ℚ → ℕ
  | [] => 0
  | a :: rest => argmaxAbsGo rest 1 0 |a|

/-- Embedding of `Lasso._check_feasible`: `norm(x, ord=1) <= alpha`. -/
def lasso_check_feasible (alpha : ℚ) (x : List ℚ) : Bool :=
  decide (norm1 x ≤ alpha)

/-- Embedding of `Lasso._function`: `(A @ x - b).T @ (A @ x - b)`. -/
def lasso_function (A : List (List ℚ)) (b : List ℚ) (x : List ℚ) : ℚ :=
  let result := vsub (matVec A x) b
  dot result result

/-- Embedding of `Lasso._gradient`: `2 * A.T @ (A @ x - b)`. -/
def lasso_gradient (A : List (List ℚ)) (b : List ℚ) (x : List ℚ) : List ℚ :=
  smul 2 (matVec (matTranspose A) (vsub (matVec A x) b))

/-- Embedding of `Lasso._linear_oracle` (line 70-77): put
`-alpha * sign(x[index])` at the first index of maximal `|x_i|`, zero
elsewhere. -/
def lasso_linear_oracle (alpha : ℚ) (x : List ℚ) : List ℚ :=
  let index := argmaxAbs x
  (List.replicate x.length 0).set index (-alpha * signQ (x.getD index 0))

/-- Embedding of `Lasso._line_search` (line 86-90):
`q_t.T @ (b - A @ x) / power(norm(q_t, 2), 2)` with `q_t = A @ (s - x)`. -/
def lasso_line_search (A : List (List ℚ)) (b : List ℚ) (s x : List ℚ) : ℚ :=
  let q_t := matVec A (vsub s x)
  dot q_t (vsub b (matVec A x)) / norm2sq q_t

/-- A `Lasso` instance as a `ProblemSpec`.  `lip` is the value of
`2 * norm(A.T @ A, ord=2)` (the spectral norm is irrational in general, so
the concrete value is supplied); `proj` stands for the projection onto the
L1 ball, delegated by the source to the external `jaxopt` library. -/
def lassoProblem (alpha : ℚ) (A : List (List ℚ)) (b : List ℚ) (lip : ℚ)
    (proj : List ℚ → List ℚ) : ProblemSpec where
  check_feasible := fun x => lasso_check_feasible alpha x
  function := fun x => lasso_function A b x
  gradient := fun x => lasso_gradient A b x
  gradient_lipschitz_constant := lip
  linear_oracle := fun x => lasso_linear_oracle alpha x
  projection := proj
  line_search := fun s x => lasso_line_search A b s x

/-- The mutable per-run history fields stored on the problem object
(`self._errors`, `self._times`). -/
structure ProblemInstance where
  errors : List ℚ
  times : List ℚ
deriving DecidableEq, Repr

/-- Functional model of the decorator
`GeneralProblem.optimization_algorithm` (line 74-88): rebind both history
fields to fresh empty lists, read `start_time = time()`, run the wrapped
algorithm body (which threads the instance and the tick of the `time()`
stream), read the end time, and return
`(elapsed_time, instance._errors, [item - start_time for item in instance._times])`
together with the final instance and tick. -/
def optimization_algorithm (ts : ℕ → ℚ)
    (body : ProblemInstance → ℕ → ProblemInstance × ℕ)
    (_inst : ProblemInstance) (tick : ℕ) :
    (ℚ × List ℚ × List ℚ) × ProblemInstance × ℕ :=
  let reset : ProblemInstance := { errors := [], times := [] }
  let start_time := ts tick
  let r := body reset (tick + 1)
  let elapsed_time := ts r.2 - start_time
  ((elapsed_time, r.1.errors, r.1.times.map (fun item => item - start_time)),
   r.1, r.2 + 1)

/-- A heap of Python list objects, for stating object-identity facts:
addresses below `next` are allocated. -/
structure Heap where
  next : ℕ
  store : ℕ → List ℚ

/-- Allocation of a fresh empty list object (`list()`). -/
def halloc (h : Heap) : ℕ × Heap :=
  (h.next, ⟨h.next + 1, fun a => if a = h.next then [] else h.store a⟩)

/-- Overwrite the object at one address. -/
def hset (h : Heap) (a : ℕ) (v : List ℚ) : Heap :=
  ⟨h.next, fun b => if b = a then v else h.store b⟩

/-- In-place `list.append`-style extension of the object at an address. -/
def happend (h : Heap) (a : ℕ) (v : List ℚ) : Heap :=
  hset h a (h.store a ++ v)

/-- The two instance attributes `_errors` and `_times`, as references to
list objects on the heap. -/
structure InstanceRefs where
  errorsRef : ℕ
  timesRef : ℕ

/-- Heap effect of one algorithm body: every `self._errors.append(...)` /
`self._times.append(...)` goes through the references currently held by
the instance, extending those two list objects in place; `es` and `tms`
are the entries the run appends. -/
def runBody (inst : InstanceRefs) (es tms : List ℚ) (h : Heap) : Heap :=
  happend (happend h inst.errorsRef es) inst.timesRef tms

/-- Heap-level model of the decorator `optimization_algorithm`:
`instance._errors = list()` and `instance._times = list()` REBIND the two
attributes to freshly allocated empty list objects (they do not clear the
old objects), the body appends through the new references, and the
returned histories are the very objects the attributes point to. -/
def optimization_algorithm_heap (es tms : List ℚ) (_inst : InstanceRefs)
    (h : Heap) : (List ℚ × List ℚ) × InstanceRefs × Heap :=
  let a1 := halloc h
  let a2 := halloc a1.2
  let inst' : InstanceRefs := ⟨a1.1, a2.1⟩
  let h' := runBody inst' es tms a2.2
  ((h'.store inst'.errorsRef, h'.store inst'.timesRef), inst', h')

/-! Supporting lemmas about the vector operations and the loop skeleton. -/

theorem dot_eq_zero_of_right_zero (g : List ℚ) :
    ∀ v : List ℚ, (∀ a ∈ v, a = 0) → dot g v = 0 := by
  induction g with
  | nil => intro v _; cases v <;> simp [dot]
  | cons a g ih =>
    intro v hv
    cases v with
    | nil => simp [dot]
    | cons b w =>
      have hb : b = 0 := hv b (by simp)
      have hw := ih w (fun a ha => hv a (by simp [ha]))
      simp [dot] at hw ⊢
      simp [hb, hw]

theorem norm2sq_nonneg (v : List ℚ) : 0 ≤ norm2sq v := by
  induction v with
  | nil => simp [norm2sq, dot]
  | cons a w ih =>
    have : norm2sq (a :: w) = a * a + norm2sq w := by simp [norm2sq, dot]
    rw [this]
    have := mul_self_nonneg a
    linarith

theorem norm2sq_eq_zero (v : List ℚ) (h : norm2sq v = 0) : ∀ a ∈ v, a = 0 := by
  induction v with
  | nil => simp
  | cons a w ih =>
    have hsplit : norm2sq (a :: w) = a * a + norm2sq w := by simp [norm2sq, dot]
    rw [hsplit] at h
    have h1 : 0 ≤ a * a := mul_self_nonneg a
    have h2 : 0 ≤ norm2sq w := norm2sq_nonneg w
    have ha : a * a = 0 := by linarith
    have hw : norm2sq w = 0 := by linarith
    intro b hb
    rcases List.mem_cons.mp hb with hb | hb
    · rw [hb]; exact mul_self_eq_zero.mp ha
    · exact ih hw b hb

theorem solver_loop_no_early {α : Type} (tol : ℚ) (ts : ℕ → ℚ)
    (metric : ℕ → α → ℚ) (update : ℕ → α → Except String α)
    (breakStop : Stopping) :
    ∀ (fuel it : ℕ) (st : α) (errors times : List ℚ) (tick : ℕ)
      (r : RunResult),
      solver_loop tol ts metric update breakStop fuel it st errors times tick
        = .ok r →
      (∀ e ∈ r.errors, ¬ e < tol) →
      r.stop = .iterations ∧ r.errors.length = errors.length + fuel ∧
        r.iteration = it + fuel := by
  intro fuel
  induction fuel with
  | zero =>
    intro it st errors times tick r h _
    rw [solver_loop] at h
    cases h
    exact ⟨rfl, rfl, rfl⟩
  | succ n ih =>
    intro it st errors times tick r h hall
    rw [solver_loop] at h
    by_cases hm : metric it st < tol
    · rw [if_pos hm] at h
      cases h
      exact absurd hm (hall (metric it st) (by simp))
    · rw [if_neg hm] at h
      cases hu : update it st with
      | error e => rw [hu] at h; cases h
      | ok st' =>
        rw [hu] at h
        have := ih (it + 1) st' (errors ++ [metric it st])
          (times ++ [ts tick]) (tick + 1) r h hall
        refine ⟨this.1, ?_, ?_⟩ <;> simp [this.2.1, this.2.2] <;> omega

theorem solver_loop_lengths {α : Type} (tol : ℚ) (ts : ℕ → ℚ)
    (metric : ℕ → α → ℚ) (update : ℕ → α → Except String α)
    (breakStop : Stopping) (hb : breakStop ≠ .iterations) :
    ∀ (fuel it : ℕ) (st : α) (errors times : List ℚ) (tick : ℕ)
      (r : RunResult),
      solver_loop tol ts metric update breakStop fuel it st errors times tick
        = .ok r →
      errors.length = it → times.length = it →
      r.errors.length = r.times.length ∧
      (r.stop = .iterations →
        r.errors.length = it + fuel ∧ r.iteration = it + fuel) ∧
      (r.stop ≠ .iterations → r.errors.length = r.iteration + 1) := by
  intro fuel
  induction fuel with
  | zero =>
    intro it st errors times tick r h he ht
    rw [solver_loop] at h
    cases h
    exact ⟨by simp [he, ht], fun _ => ⟨by simp [he], rfl⟩, fun hc => absurd rfl hc⟩
  | succ n ih =>
    intro it st errors times tick r h he ht
    rw [solver_loop] at h
    by_cases hm : metric it st < tol
    · rw [if_pos hm] at h
      cases h
      exact ⟨by simp [he, ht], fun hc => absurd hc hb, fun _ => by simp [he]⟩
    · rw [if_neg hm] at h
      cases hu : update it st with
      | error e => rw [hu] at h; cases h
      | ok st' =>
        rw [hu] at h
        have := ih (it + 1) st' (errors ++ [metric it st])
          (times ++ [ts tick]) (tick + 1) r h (by simp [he]) (by simp [ht])
        refine ⟨this.1, fun hc => ?_, this.2.2⟩
        have := this.2.1 hc
        omega

theorem solver_loop_ok_of_update_ok {α : Type} (tol : ℚ) (ts : ℕ → ℚ)
    (metric : ℕ → α → ℚ) (update : ℕ → α → Except String α)
    (breakStop : Stopping)
    (hup : ∀ (it : ℕ) (st : α), ¬ metric it st < tol →
      exceptIsOk (update it st) = true) :
    ∀ (fuel it : ℕ) (st : α) (errors times : List ℚ) (tick : ℕ),
      exceptIsOk
        (solver_loop tol ts metric update breakStop fuel it st errors times tick)
        = true := by
  intro fuel
  induction fuel with
  | zero =>
    intro it st errors times tick
    rw [solver_loop]
    rfl
  | succ n ih =>
    intro it st errors times tick
    rw [solver_loop]
    by_cases hm : metric it st < tol
    · rw [if_pos hm]; rfl
    · rw [if_neg hm]
      have := hup it st hm
      cases hu : update it st with
      | error e => rw [hu] at this; cases this
      | ok st' => exact ih (it + 1) st' (errors ++ [metric it st]) (times ++ [ts tick]) (tick + 1)

/-! Concrete instances used by witnesses and counterexamples. -/

/-- Deterministic stand-in for the `time()` stream: tick `n` reads `n`. -/
def tsN : ℕ → ℚ := fun n => (n : ℚ)

/-- A two-feature Lasso instance: `A` the identity, `b = [1, 1]`,
`alpha = 1/10`; the gradient-Lipschitz value is `2 * norm(A.T @ A, 2) = 2`. -/
def exampleLasso2 : ProblemSpec :=
  lassoProblem (1/10) [[1, 0], [0, 1]] [1, 1] 2 (fun v => v)

/-- A one-feature Lasso instance: `A = [[1]]`, `b = [1]`, `alpha = 1/10`,
gradient-Lipschitz value `2`. -/
def exampleLasso1 : ProblemSpec :=
  lassoProblem (1/10) [[1]] [1] 2 (fun v => v)

/-- The default starting point of the two-feature instance. -/
def x0two : List ℚ := [0, 0]

/-! Claim C5. -/

/-- Shape of the C5 statement for one run: if no recorded metric fell below
the tolerance, the run stopped by exhaustion with `max_iterations + 1`
recorded error entries (iterations 0 through `max_iterations`). -/
def exhaustsOk (run : Except String RunResult) (tol : ℚ) (maxIter : ℕ) : Prop :=
  noEarlyStop run tol = true →
    runStop run = .iterations ∧ (runErrors run).length = maxIter + 1

theorem exhaustsOk_solver_loop {α : Type} (tol : ℚ) (ts : ℕ → ℚ)
    (metric : ℕ → α → ℚ) (update : ℕ → α → Except String α)
    (breakStop : Stopping) (maxIter : ℕ) (st0 : α) :
    exhaustsOk
      (solver_loop tol ts metric update breakStop (maxIter + 1) 0 st0 [] [] 0)
      tol maxIter := by
  intro hne
  cases hr : solver_loop tol ts metric update breakStop (maxIter + 1) 0 st0 [] [] 0 with
  | error e => rw [hr] at hne; simp [noEarlyStop] at hne
  | ok r =>
    rw [hr] at hne
    have hall : ∀ e ∈ r.errors, ¬ e < tol := by
      have h' : ∀ e ∈ r.errors, tol ≤ e := by simpa [noEarlyStop] using hne
      intro e he
      exact not_lt.mpr (h' e he)
    have hmain := solver_loop_no_early tol ts metric update breakStop
      (maxIter + 1) 0 st0 [] [] 0 r hr hall
    simp only [runStop, runErrors]
    exact ⟨hmain.1, by simpa using hmain.2.1⟩

/-- C5: for every problem instance and every algorithm variant, if the
progress metric never falls below the tolerance during the run, the run
terminates with the max-iterations stopping condition after recording
exactly `max_iterations + 1` error entries (iterations 0 through
`max_iterations` inclusive). -/
theorem no_early_stop_exhausts_iterations (P : ProblemSpec) (parameter : ℚ)
    (norm2 : List ℚ → ℚ) (innerFuel : ℕ) (tol : ℚ) (maxIter : ℕ)
    (x0 : List ℚ) (ts : ℕ → ℚ) :
    exhaustsOk (projected_gradient_descent P tol maxIter x0 ts) tol maxIter ∧
    exhaustsOk (frank_wolfe_open_loop P parameter tol maxIter x0 ts) tol maxIter ∧
    exhaustsOk (frank_wolfe_short_steps P tol maxIter x0 ts) tol maxIter ∧
    exhaustsOk (frank_wolfe_line_search P tol maxIter x0 ts) tol maxIter ∧
    exhaustsOk (frank_wolfe_backtracking P norm2 innerFuel tol maxIter x0 ts)
      tol maxIter := by
  refine ⟨?_, ?_, ?_, ?_, ?_⟩
  · unfold projected_gradient_descent
    exact exhaustsOk_solver_loop _ _ _ _ _ _ _
  · unfold frank_wolfe_open_loop
    exact exhaustsOk_solver_loop _ _ _ _ _ _ _
  · unfold frank_wolfe_short_steps
    exact exhaustsOk_solver_loop _ _ _ _ _ _ _
  · unfold frank_wolfe_line_search
    exact exhaustsOk_solver_loop _ _ _ _ _ _ _
  · unfold frank_wolfe_backtracking
    exact exhaustsOk_solver_loop _ _ _ _ _ _ _

/-- C5 witness: on the concrete two-feature instance with `tolerance = 0`
(no recorded gap or objective value is ever negative, so the metric never
falls below the tolerance) and `max_iterations = 1`, each of the five
variants stops by exhaustion with 2 recorded error entries. -/
theorem no_early_stop_exhausts_iterations_witness :
    runStop (projected_gradient_descent exampleLasso2 0 1 x0two tsN) = .iterations ∧
    (runErrors (projected_gradient_descent exampleLasso2 0 1 x0two tsN)).length = 2 ∧
    runStop (frank_wolfe_open_loop exampleLasso2 1 0 1 x0two tsN) = .iterations ∧
    (runErrors (frank_wolfe_open_loop exampleLasso2 1 0 1 x0two tsN)).length = 2 ∧
    runStop (frank_wolfe_short_steps exampleLasso2 0 1 x0two tsN) = .iterations ∧
    (runErrors (frank_wolfe_short_steps exampleLasso2 0 1 x0two tsN)).length = 2 ∧
    runStop (frank_wolfe_line_search exampleLasso2 0 1 x0two tsN) = .iterations ∧
    (runErrors (frank_wolfe_line_search exampleLasso2 0 1 x0two tsN)).length = 2 ∧
    runStop (frank_wolfe_backtracking exampleLasso2 (fun _ => 0) 2 0 1 x0two tsN) = .iterations ∧
    (runErrors (frank_wolfe_backtracking exampleLasso2 (fun _ => 0) 2 0 1 x0two tsN)).length = 2 := by
  obtain ⟨h1, h2, h3, h4, h5⟩ :=
    no_early_stop_exhausts_iterations exampleLasso2 1 (fun _ => 0) 2 0 1 x0two tsN
  obtain ⟨a1, b1⟩ := h1 (by with_unfolding_all decide)
  obtain ⟨a2, b2⟩ := h2 (by with_unfolding_all decide)
  obtain ⟨a3, b3⟩ := h3 (by with_unfolding_all decide)
  obtain ⟨a4, b4⟩ := h4 (by with_unfolding_all decide)
  obtain ⟨a5, b5⟩ := h5 (by with_unfolding_all decide)
  exact ⟨a1, b1, a2, b2, a3, b3, a4, b4, a5, b5⟩

/-! Claim C1. -/

/-- Shape of the (amended) C1 statement for one run: the two histories
always have the same length; on tolerance termination both have one entry
more than the number of completed update steps (the final iteration
counter value), because the break path also appends a timestamp; on
exhaustion both have `max_iterations + 1` entries and `max_iterations + 1`
update steps completed. -/
def historyLengthsOk (run : Except String RunResult) (maxIter : ℕ) : Prop :=
  exceptIsOk run = true →
    (runErrors run).length = (runTimes run).length ∧
    (runStop run = .gap → (runTimes run).length = runIteration run + 1) ∧
    (runStop run = .iterations →
      (runTimes run).length = maxIter + 1 ∧ runIteration run = maxIter + 1)

theorem historyLengthsOk_solver_loop {α : Type} (tol : ℚ) (ts : ℕ → ℚ)
    (metric : ℕ → α → ℚ) (update : ℕ → α → Except String α) (maxIter : ℕ)
    (st0 : α) :
    historyLengthsOk
      (solver_loop tol ts metric update .gap (maxIter + 1) 0 st0 [] [] 0)
      maxIter := by
  intro hok
  cases hr : solver_loop tol ts metric update .gap (maxIter + 1) 0 st0 [] [] 0 with
  | error e => rw [hr] at hok; exact absurd hok (by simp [exceptIsOk])
  | ok r =>
    have h := solver_loop_lengths tol ts metric update .gap (by simp)
      (maxIter + 1) 0 st0 [] [] 0 r hr rfl rfl
    simp only [runStop, runErrors, runTimes, runIteration]
    refine ⟨h.1, fun hg => ?_, fun hi => ?_⟩
    · have h1 := h.1
      have h3 := h.2.2 (by rw [hg]; simp)
      omega
    · have h1 := h.1
      have h2 := h.2.1 hi
      constructor <;> omega

/-- C1 (amended): for the four Frank-Wolfe variants, the error history and
the time history always have equal length; on termination by the tolerance
check both histories have (completed update steps) + 1 entries — the break
path appends the terminal timestamp — and on termination by exhaustion both
have `max_iterations + 1` entries, one per completed update step. -/
theorem frank_wolfe_history_lengths (P : ProblemSpec) (parameter : ℚ)
    (norm2 : List ℚ → ℚ) (innerFuel : ℕ) (tol : ℚ) (maxIter : ℕ)
    (x0 : List ℚ) (ts : ℕ → ℚ) :
    historyLengthsOk (frank_wolfe_open_loop P parameter tol maxIter x0 ts) maxIter ∧
    historyLengthsOk (frank_wolfe_short_steps P tol maxIter x0 ts) maxIter ∧
    historyLengthsOk (frank_wolfe_line_search P tol maxIter x0 ts) maxIter ∧
    historyLengthsOk (frank_wolfe_backtracking P norm2 innerFuel tol maxIter x0 ts)
      maxIter := by
  refine ⟨?_, ?_, ?_, ?_⟩
  · unfold frank_wolfe_open_loop
    exact historyLengthsOk_solver_loop _ _ _ _ _ _
  · unfold frank_wolfe_short_steps
    exact historyLengthsOk_solver_loop _ _ _ _ _ _
  · unfold frank_wolfe_line_search
    exact historyLengthsOk_solver_loop _ _ _ _ _ _
  · unfold frank_wolfe_backtracking
    exact historyLengthsOk_solver_loop _ _ _ _ _ _

/-- C1 counterexample: on the concrete two-feature instance with
`tolerance = 1`, `frank_wolfe_line_search` stops by the tolerance check at
iteration 0 with 0 completed update steps, yet the returned time history
has 1 entry (the break path appended a timestamp) and the error history
also has 1 entry — refuting both "time history has as many entries as
completed update steps" and "error history has one more entry than the
time history on tolerance termination". -/
theorem frank_wolfe_history_claim_counterexample :
    runStop (frank_wolfe_line_search exampleLasso2 1 0 x0two tsN) = .gap ∧
    runIteration (frank_wolfe_line_search exampleLasso2 1 0 x0two tsN) = 0 ∧
    (runTimes (frank_wolfe_line_search exampleLasso2 1 0 x0two tsN)).length = 1 ∧
    (runErrors (frank_wolfe_line_search exampleLasso2 1 0 x0two tsN)).length = 1 ∧
    ¬((runTimes (frank_wolfe_line_search exampleLasso2 1 0 x0two tsN)).length =
        runIteration (frank_wolfe_line_search exampleLasso2 1 0 x0two tsN) ∧
      (runErrors (frank_wolfe_line_search exampleLasso2 1 0 x0two tsN)).length =
        (runTimes (frank_wolfe_line_search exampleLasso2 1 0 x0two tsN)).length + 1) := by
  with_unfolding_all decide

/-- C1 witness: the exhaustion run of `frank_wolfe_line_search` on the
two-feature instance (`tolerance = 0`, `max_iterations = 1`) has histories
of equal length. -/
theorem frank_wolfe_history_lengths_witness :
    (runErrors (frank_wolfe_line_search exampleLasso2 0 1 x0two tsN)).length =
      (runTimes (frank_wolfe_line_search exampleLasso2 0 1 x0two tsN)).length :=
  ((frank_wolfe_history_lengths exampleLasso2 1 (fun _ => 0) 2 0 1 x0two tsN).2.2.1
    (by with_unfolding_all decide)).1

/-! Claim C9. -/

/-- C9: under `tolerance > 0` and gradient-Lipschitz constant `L > 0`, a
run of `frank_wolfe_short_steps` never divides by zero in its step-size
computation: the division `gap / (L * power(norm(d, 2), 2))` is reached
only after the tolerance check fails (`gap ≥ tolerance > 0`), and an
all-zero `d = s - x` would force `gap = -gradient @ d = 0 < tolerance`, so
at the division `d ≠ 0`, hence `L * norm2sq d ≠ 0` and the fallible
embedding completes every run. -/
theorem short_steps_no_division_by_zero (P : ProblemSpec) (tol : ℚ)
    (maxIter : ℕ) (x0 : List ℚ) (ts : ℕ → ℚ) (htol : 0 < tol)
    (hlip : 0 < P.gradient_lipschitz_constant) :
    exceptIsOk (frank_wolfe_short_steps P tol maxIter x0 ts) = true := by
  unfold frank_wolfe_short_steps
  apply solver_loop_ok_of_update_ok
  intro it x hm
  dsimp only at hm ⊢
  by_cases hz : P.gradient_lipschitz_constant *
      norm2sq (vsub (P.linear_oracle (P.gradient x)) x) = 0
  · exfalso
    have hnz : norm2sq (vsub (P.linear_oracle (P.gradient x)) x) = 0 := by
      rcases mul_eq_zero.mp hz with h | h
      · exact absurd h (ne_of_gt hlip)
      · exact h
    have hzero : ∀ a ∈ vsub (P.linear_oracle (P.gradient x)) x, a = 0 :=
      norm2sq_eq_zero _ hnz
    have hdot : dot (P.gradient x) (vsub (P.linear_oracle (P.gradient x)) x) = 0 :=
      dot_eq_zero_of_right_zero _ _ hzero
    exact hm (by rw [hdot]; simpa using htol)
  · rw [if_neg hz]
    rfl

/-- C9 witness: the one-feature instance with `tolerance = 1/100 > 0` and
`L = 2 > 0` completes its `frank_wolfe_short_steps` run. -/
theorem short_steps_no_division_by_zero_witness :
    exceptIsOk (frank_wolfe_short_steps exampleLasso1 (1/100) 0 [0] tsN) = true :=
  short_steps_no_division_by_zero exampleLasso1 (1/100) 0 [0] tsN
    (by norm_num) (by with_unfolding_all decide)

/-! Claim C2. -/

theorem backtracking_step_size_go_spec (gfn : List ℚ → List ℚ)
    (g x s : List ℚ) :
    ∀ (fuel : ℕ) (cap_m γ M : ℚ),
      backtracking_step_size_go gfn g x s fuel cap_m = some (γ, M) →
      γ = candidateGamma g x s M ∧
      backtracking_accepts gfn x s γ = true ∧
      ∃ k : ℕ, M = cap_m * 2 ^ k ∧
        ∀ j < k,
          backtracking_accepts gfn x s (candidateGamma g x s (cap_m * 2 ^ j))
            = false := by
  intro fuel
  induction fuel with
  | zero =>
    intro cap_m γ M h
    rw [backtracking_step_size_go] at h
    cases h
  | succ n ih =>
    intro cap_m γ M h
    rw [backtracking_step_size_go] at h
    by_cases ha : backtracking_accepts gfn x s (candidateGamma g x s cap_m) = true
    · rw [if_pos ha] at h
      cases h
      refine ⟨rfl, ha, 0, by ring, ?_⟩
      intro j hj
      exact absurd hj (Nat.not_lt_zero j)
    · rw [if_neg ha] at h
      obtain ⟨h1, h2, k, hk, hlt⟩ := ih (cap_m * 2) γ M h
      refine ⟨h1, h2, k + 1, by rw [hk]; ring, ?_⟩
      intro j hj
      cases j with
      | zero =>
        have ha' : backtracking_accepts gfn x s (candidateGamma g x s cap_m) = false :=
          Bool.eq_false_iff.mpr ha
        simpa [pow_zero, mul_one] using ha'
      | succ j' =>
        have := hlt j' (by omega)
        have harith : cap_m * 2 * 2 ^ j' = cap_m * 2 ^ (j' + 1) := by ring
        rwa [harith] at this

/-- C2 (amended): the inner search of `frank_wolfe_backtracking.__step_size`
starts from `M = 0.9 * L_prev`, tries `gamma = min(1, gap / (M * norm(d)^2))`,
accepts `(gamma, M)` exactly when the inner product of the gradient at
`x + gamma*d` with `x - s` (not `s - x`) is non-negative, otherwise doubles
`M` and retries; and the outer loop stores the accepted `M` in the loop
state, where it becomes `L_prev` (`cap_l`) for the next iteration. -/
theorem backtracking_step_size_characterization :
    (∀ (gfn : List ℚ → List ℚ) (L : ℚ) (g x s : List ℚ) (fuel : ℕ) (γ M : ℚ),
      backtracking_step_size gfn L g x s fuel = some (γ, M) →
      γ = candidateGamma g x s M ∧
      backtracking_accepts gfn x s γ = true ∧
      ∃ k : ℕ, M = 9/10 * L * 2 ^ k ∧
        ∀ j < k,
          backtracking_accepts gfn x s (candidateGamma g x s (9/10 * L * 2 ^ j))
            = false) ∧
    (∀ (P : ProblemSpec) (norm2 : List ℚ → ℚ) (innerFuel : ℕ) (tol : ℚ)
      (it : ℕ) (st : List ℚ × Option ℚ) (x' : List ℚ) (capl' : Option ℚ),
      backtracking_update P norm2 innerFuel tol it st = .ok (x', capl') →
      ∃ γ M, capl' = some M ∧
        backtracking_step_size P.gradient
          (backtracking_cap_l P norm2 tol it st.2 (P.gradient st.1) st.1
            (vsub (P.linear_oracle (P.gradient st.1)) st.1))
          (P.gradient st.1) st.1 (P.linear_oracle (P.gradient st.1)) innerFuel
          = some (γ, M) ∧
        x' = vadd st.1 (smul γ (vsub (P.linear_oracle (P.gradient st.1)) st.1))) := by
  constructor
  · intro gfn L g x s fuel γ M h
    have := backtracking_step_size_go_spec gfn g x s fuel (9/10 * L) γ M h
    exact ⟨this.1, this.2.1, this.2.2⟩
  · intro P norm2 innerFuel tol it st x' capl' h
    unfold backtracking_update at h
    dsimp only at h
    cases hss : backtracking_step_size P.gradient
        (backtracking_cap_l P norm2 tol it st.2 (P.gradient st.1) st.1
          (vsub (P.linear_oracle (P.gradient st.1)) st.1))
        (P.gradient st.1) st.1 (P.linear_oracle (P.gradient st.1)) innerFuel with
    | none => rw [hss] at h; cases h
    | some p =>
      obtain ⟨γ, M⟩ := p
      rw [hss] at h
      cases h
      exact ⟨γ, M, rfl, rfl, rfl⟩

/-- Test gradient for the concrete backtracking example: the gradient of
the one-dimensional objective `(x - 1)^2 / 2`. -/
def grad1 : List ℚ → List ℚ := fun v => [v.getD 0 0 - 1]

/-- C2 counterexample: with `x = [0]`, `s = [1]`, `gradient = [-1]` and
`L_prev = 20/9` (so `M = 0.9 * L_prev = 2` and `gamma = 1/2`), the inner
search accepts `(1/2, 2)` on its first try although
`⟨∇f(x + gamma*d), s - x⟩ = -1/2 < 0` — the source accepts on
`⟨∇f(x + gamma*d), x - s⟩ ≥ 0`, the opposite sign of the claimed
condition. -/
theorem backtracking_accept_sign_counterexample :
    backtracking_step_size grad1 (20/9) [-1] [0] [1] 3 = some (1/2, 2) ∧
    dot (grad1 (vadd [0] (smul (1/2) (vsub [1] [0])))) (vsub [1] [0]) < 0 := by
  with_unfolding_all decide

/-- C2 witness: the characterization applied to the concrete accepted pair
`(1/2, 2)` of the counterexample input recovers the candidate-step
formula. -/
theorem backtracking_step_size_characterization_witness :
    (1/2 : ℚ) = candidateGamma [-1] [0] [1] 2 :=
  (backtracking_step_size_characterization.1 grad1 (20/9) [-1] [0] [1] 3
    (1/2) 2 (by with_unfolding_all decide)).1

/-! Claim C3. -/

/-- C3: supplying an explicit two-element starting point makes
`x_0 if x_0 else zeros(shape=x_size)` evaluate the truth value of a
numpy array with more than one element, which raises a `ValueError` —
construction fails with the ambiguity error even though the supplied point
`[1/20, 0]` is feasible (`norm1 = 1/20 ≤ alpha = 1/10`), so the solvers
never start from a copy of it. -/
theorem explicit_x0_truthiness_value_error :
    GeneralProblem.init exampleLasso2 (1/10000) 10 (some [1/20, 0]) 2 =
      .error "The truth value of an array with more than one element is ambiguous" ∧
    lasso_check_feasible (1/10) [1/20, 0] = true := by
  constructor
  · with_unfolding_all rfl
  · with_unfolding_all decide

/-! Claim C4. -/

/-- C4 (amended): construction performs no check at all on the
gradient-Lipschitz estimate — with the default starting point, construction
succeeds exactly when the zero vector passes the feasibility check,
whatever the sign of the constant; the constant is merely computed and
cached. -/
theorem general_problem_init_no_lipschitz_check (P : ProblemSpec) (tol : ℚ)
    (maxIter x_size : ℕ) :
    exceptIsOk (GeneralProblem.init P tol maxIter none x_size) =
      P.check_feasible (List.replicate x_size 0) := by
  cases hc : P.check_feasible (List.replicate x_size 0) <;>
    simp [GeneralProblem.init, effective_x_0, exceptIsOk, hc, Bind.bind,
      Except.bind]

/-- A Lasso instance whose linear system is the zero matrix, so its
gradient-Lipschitz constant `2 * norm(A.T @ A, 2)` is genuinely `0`. -/
def zeroMatrixLasso : ProblemSpec := lassoProblem 1 [[0]] [0] 0 (fun v => v)

/-- C4 counterexample: a problem whose gradient-Lipschitz estimate is `0`
constructs without any error — the claimed construction-time failure does
not exist in the code. -/
theorem nonpositive_lipschitz_constructs_counterexample :
    zeroMatrixLasso.gradient_lipschitz_constant = 0 ∧
    exceptIsOk (GeneralProblem.init zeroMatrixLasso 1 5 none 1) = true := by
  constructor
  · with_unfolding_all decide
  · with_unfolding_all decide

/-! Claim C6. -/

/-- C6: the wrapper of `optimization_algorithm` first resets the history
fields to fresh empty lists (its result is independent of the histories on
the incoming instance), records the start timestamp, runs the body, and
returns the triple of elapsed time, the error history produced by the
body, and the body's time history with the start timestamp subtracted from
every entry. -/
theorem optimization_algorithm_wrapper_contract (ts : ℕ → ℚ)
    (body : ProblemInstance → ℕ → ProblemInstance × ℕ)
    (inst : ProblemInstance) (tick : ℕ) :
    optimization_algorithm ts body inst tick =
      optimization_algorithm ts body ⟨[], []⟩ tick ∧
    optimization_algorithm ts body inst tick =
      ((ts (body ⟨[], []⟩ (tick + 1)).2 - ts tick,
        (body ⟨[], []⟩ (tick + 1)).1.errors,
        (body ⟨[], []⟩ (tick + 1)).1.times.map (fun item => item - ts tick)),
       (body ⟨[], []⟩ (tick + 1)).1, (body ⟨[], []⟩ (tick + 1)).2 + 1) :=
  ⟨rfl, rfl⟩

/-! Claim C7. -/

/-- C7: at iteration 0 the progress line is NOT emitted — the guard
`if iteration and value` treats the integer `0` as falsy, so the printed
line is empty; at a nonzero iteration with a nonzero metric the formatted
line appears, and the terminal call with the stopping-condition string
prints that string verbatim. -/
theorem show_results_iteration_zero_empty :
    show_results (some 0) (some (1/5)) none = .empty ∧
    show_results (some 3) (some (1/5)) none = .formatted 3 (1/5) ∧
    show_results none none (some (Stopping.iterations).value) =
      .raw "maximum iterations reached" := by
  refine ⟨?_, ?_, ?_⟩ <;> with_unfolding_all decide

/-! Claim C8. -/

/-- C8: running the wrapper a second time on the same instance leaves the
list objects returned by the first run unchanged on the heap: the wrapper
rebinds `_errors`/`_times` to freshly allocated list objects, so the
second run appends only through the new references and the previously
returned histories keep their contents. -/
theorem rerun_preserves_returned_histories (es1 tms1 es2 tms2 : List ℚ)
    (inst : InstanceRefs) (h : Heap) :
    ((optimization_algorithm_heap es2 tms2
        (optimization_algorithm_heap es1 tms1 inst h).2.1
        (optimization_algorithm_heap es1 tms1 inst h).2.2).2.2).store
      (optimization_algorithm_heap es1 tms1 inst h).2.1.errorsRef
      = (optimization_algorithm_heap es1 tms1 inst h).1.1 ∧
    ((optimization_algorithm_heap es2 tms2
        (optimization_algorithm_heap es1 tms1 inst h).2.1
        (optimization_algorithm_heap es1 tms1 inst h).2.2).2.2).store
      (optimization_algorithm_heap es1 tms1 inst h).2.1.timesRef
      = (optimization_algorithm_heap es1 tms1 inst h).1.2 := by
  constructor <;>
    · simp only [optimization_algorithm_heap, halloc, runBody, happend, hset]
      split_ifs <;> first | rfl | omega

/-! Claim C10. -/

/-- Number of nonzero entries of a vector. -/
def countNonzero : List ℚ → ℕ
  | [] => 0
  | a :: t => (if a = 0 then 0 else 1) + countNonzero t

theorem norm1_cons (a : ℚ) (t : List ℚ) : norm1 (a :: t) = |a| + norm1 t := by
  simp [norm1]

theorem norm1_zeros (l : List ℚ) (h : ∀ b ∈ l, b = 0) : norm1 l = 0 := by
  induction l with
  | nil => simp [norm1]
  | cons a t ih =>
    rw [norm1_cons, h a (by simp), ih (fun b hb => h b (by simp [hb]))]
    simp

theorem norm1_set_le (l : List ℚ) (c : ℚ) (h : ∀ b ∈ l, b = 0) :
    ∀ i : ℕ, norm1 (l.set i c) ≤ |c| := by
  induction l with
  | nil =>
    intro i
    simp [norm1, abs_nonneg]
  | cons a t ih =>
    intro i
    cases i with
    | zero =>
      rw [List.set_cons_zero, norm1_cons,
        norm1_zeros t (fun b hb => h b (by simp [hb]))]
      simp
    | succ i' =>
      rw [List.set_cons_succ, norm1_cons, h a (by simp)]
      simpa using ih (fun b hb => h b (by simp [hb])) i'

theorem countNonzero_zeros (l : List ℚ) (h : ∀ b ∈ l, b = 0) :
    countNonzero l = 0 := by
  induction l with
  | nil => rfl
  | cons a t ih =>
    rw [countNonzero, if_pos (h a (by simp)),
      ih (fun b hb => h b (by simp [hb]))]

theorem countNonzero_set_le_one (l : List ℚ) (h : ∀ b ∈ l, b = 0) :
    ∀ (i : ℕ) (c : ℚ), countNonzero (l.set i c) ≤ 1 := by
  induction l with
  | nil => intro i c; simp [countNonzero]
  | cons a t ih =>
    intro i c
    cases i with
    | zero =>
      rw [List.set_cons_zero, countNonzero,
        countNonzero_zeros t (fun b hb => h b (by simp [hb]))]
      split_ifs <;> omega
    | succ i' =>
      rw [List.set_cons_succ, countNonzero, if_pos (h a (by simp))]
      simpa using ih (fun b hb => h b (by simp [hb])) i' c

/-- C10: for a non-negative radius `alpha`, the Lasso linear oracle returns
a vector with at most one nonzero entry, every entry bounded by `alpha` in
absolute value, L1 norm at most `alpha`, and therefore passing the
feasibility check. -/
theorem lasso_linear_oracle_feasible (alpha : ℚ) (x : List ℚ)
    (halpha : 0 ≤ alpha) :
    countNonzero (lasso_linear_oracle alpha x) ≤ 1 ∧
    (∀ a ∈ lasso_linear_oracle alpha x, |a| ≤ alpha) ∧
    norm1 (lasso_linear_oracle alpha x) ≤ alpha ∧
    lasso_check_feasible alpha (lasso_linear_oracle alpha x) = true := by
  have hzeros : ∀ b ∈ List.replicate x.length (0 : ℚ), b = 0 :=
    fun b hb => List.eq_of_mem_replicate hb
  have hc : |(-alpha * signQ (x.getD (argmaxAbs x) 0))| ≤ alpha := by
    rw [abs_mul, abs_neg, abs_of_nonneg halpha]
    have hs : |signQ (x.getD (argmaxAbs x) 0)| ≤ 1 := by
      unfold signQ
      split_ifs <;> norm_num
    calc alpha * |signQ (x.getD (argmaxAbs x) 0)| ≤ alpha * 1 :=
          mul_le_mul_of_nonneg_left hs halpha
      _ = alpha := mul_one alpha
  have hnorm : norm1 (lasso_linear_oracle alpha x) ≤ alpha := by
    unfold lasso_linear_oracle
    exact le_trans (norm1_set_le _ _ hzeros _) hc
  refine ⟨?_, ?_, hnorm, ?_⟩
  · unfold lasso_linear_oracle
    exact countNonzero_set_le_one _ hzeros _ _
  · intro a ha
    unfold lasso_linear_oracle at ha
    rcases List.mem_or_eq_of_mem_set ha with hmem | heq
    · rw [hzeros a hmem]
      simpa using halpha
    · rw [heq]
      exact hc
  · unfold lasso_check_feasible
    exact decide_eq_true hnorm

/-- C10 witness: for `alpha = 1/10` and input `[3, -5]` the returned
oracle vertex passes the feasibility check. -/
theorem lasso_linear_oracle_feasible_witness :
    lasso_check_feasible (1/10) (lasso_linear_oracle (1/10) [3, -5]) = true :=
  (lasso_linear_oracle_feasible (1/10) [3, -5] (by norm_num)).2.2.2
